import Mathlib

/-!
Shallow embedding of `dns-checker-cli` (src/dns.ts, src/types.ts, src/formatter.ts)
and proofs of the specification claims about it.

The underlying platform resolver (`node:dns/promises`) is an external
collaborator: its per-call outcome is passed in as data (either a
type-appropriate structured answer or a `JsError` carrying the Node error
`code` and `message`).  Asynchrony is modelled by quantifying over every
possible assignment of per-task outcomes: the functions below are the
deterministic positional joins the source performs on settled values.
-/

namespace DnsChecker

/-- The nine record types of `src/types.ts` (`RECORD_TYPES`). -/
inductive RecordType where
  | A
  | AAAA
  | CNAME
  | MX
  | NS
  | TXT
  | SOA
  | CAA
  | SRV
deriving DecidableEq, Repr

/-- The string name of a record type (the literal union value in `src/types.ts`). -/
def RecordType.name : RecordType → String
  | .A => "A"
  | .AAAA => "AAAA"
  | .CNAME => "CNAME"
  | .MX => "MX"
  | .NS => "NS"
  | .TXT => "TXT"
  | .SOA => "SOA"
  | .CAA => "CAA"
  | .SRV => "SRV"

/-- One MX answer from `dns.resolveMx`: `{ priority, exchange }`. -/
structure MxAnswer where
  priority : Nat
  exchange : String
deriving DecidableEq, Repr

/-- The single SOA answer from `dns.resolveSoa`. -/
structure SoaAnswer where
  nsname : String
  hostmaster : String
  serial : Nat
  refresh : Nat
  retry : Nat
  expire : Nat
  minttl : Nat
deriving DecidableEq, Repr

/-- One CAA answer from `dns.resolveCaa`: `critical` is the flags byte
(a JS number, so its truth value is "nonzero"); at most one of
`issue` / `issuewild` / `iodef` is normally populated, but the source
handles every combination, so all three are optional here. -/
structure CaaAnswer where
  critical : Nat
  issue : Option String
  issuewild : Option String
  iodef : Option String
deriving DecidableEq, Repr

/-- One SRV answer from `dns.resolveSrv`. -/
structure SrvAnswer where
  priority : Nat
  weight : Nat
  port : Nat
  name : String
deriving DecidableEq, Repr

/-- A thrown Node error (`NodeJS.ErrnoException`): optional `code`, and a
`message` string (possibly empty, which is falsy in JS). -/
structure JsError where
  code : Option String
  message : String
deriving DecidableEq, Repr

/-- `DnsResult` of `src/types.ts`: `type`, `records`, optional `error`. -/
structure DnsResult where
  type : RecordType
  records : List String
  error : Option String := none
deriving DecidableEq, Repr

/-- The shape of the structured answer the platform resolver returns for
each record type (the return types of the `dns.resolve*` calls used in
`src/dns.ts`). -/
def Answer : RecordType → Type
  | .A => List String
  | .AAAA => List String
  | .CNAME => List String
  | .MX => List MxAnswer
  | .NS => List String
  | .TXT => List (List String)
  | .SOA => SoaAnswer
  | .CAA => List CaaAnswer
  | .SRV => List SrvAnswer

/-- The comparator `(a, b) => a.priority - b.priority` of the MX branch,
as the ordering it induces. -/
def mxLe (a b : MxAnswer) : Prop := a.priority ≤ b.priority

instance : DecidableRel mxLe := fun a b => Nat.decLe a.priority b.priority

instance : IsTotal MxAnswer mxLe := ⟨fun a b => Nat.le_total a.priority b.priority⟩

instance : IsTrans MxAnswer mxLe := ⟨fun _ _ _ hab hbc => Nat.le_trans hab hbc⟩

/-- `records.sort((a, b) => a.priority - b.priority)` in the MX branch of
`src/dns.ts`.  JS `Array.prototype.sort` is guaranteed stable (ES2019), and a
stable sort under a total preorder is uniquely determined, so insertion sort
is an exact model. -/
def sortMx (l : List MxAnswer) : List MxAnswer := List.insertionSort mxLe l

/-- The MX `.map` callback of `src/dns.ts` (null-MX special case included). -/
def renderMx (r : MxAnswer) : String :=
  if r.priority = 0 ∧ r.exchange = "." then
    toString r.priority ++ " . (null MX — domain does not accept mail)"
  else
    toString r.priority ++ " " ++ r.exchange

/-- `r.join("")` on one TXT answer's chunk array. -/
def joinChunks (chunks : List String) : String :=
  List.foldl (fun acc s => acc ++ s) "" chunks

/-- The seven fixed SOA lines of `src/dns.ts`. -/
def renderSoa (r : SoaAnswer) : List String :=
  ["Primary NS: " ++ r.nsname,
   "Hostmaster: " ++ r.hostmaster,
   "Serial: " ++ toString r.serial,
   "Refresh: " ++ toString r.refresh ++ "s",
   "Retry: " ++ toString r.retry ++ "s",
   "Expire: " ++ toString r.expire ++ "s",
   "Min TTL: " ++ toString r.minttl ++ "s"]

/-- TS `a ?? b` (nullish coalescing) on an optional string. -/
def nullish (a : Option String) (b : String) : String :=
  match a with
  | some v => v
  | none => b

/-- The CAA `.map` callback of `src/dns.ts`:
`critical ? "128" : "0"` (JS number truthiness, i.e. nonzero),
tag by `issue != null` then `issuewild != null` else `"iodef"`,
value by `issue ?? issuewild ?? iodef ?? "unknown"`. -/
def renderCaa (r : CaaAnswer) : String :=
  let flags := if r.critical ≠ 0 then "128" else "0"
  let tag :=
    if r.issue.isSome then "issue"
    else if r.issuewild.isSome then "issuewild"
    else "iodef"
  let value := nullish r.issue (nullish r.issuewild (nullish r.iodef "unknown"))
  flags ++ " " ++ tag ++ " " ++ value

/-- The SRV `.map` callback of `src/dns.ts`. -/
def renderSrv (r : SrvAnswer) : String :=
  toString r.priority ++ " " ++ toString r.weight ++ " " ++
    toString r.port ++ " " ++ r.name

/-- JS `s || fallback` on strings: the empty string is falsy. -/
def orFallback (s fb : String) : String := if s = "" then fb else s

/-- The fallback error text `` `Failed to resolve ${type} records` ``. -/
def fallbackMessage (t : RecordType) : String :=
  "Failed to resolve " ++ t.name ++ " records"

/-- `resolveType` of `src/dns.ts`, as a function of the record type and of
the outcome of the one underlying `dns.resolve*` call it issues.  The
`.error` case is the `catch` block: `ENODATA` / `ENOTFOUND` yield an empty
success, anything else an error result with `error.message || fallback`. -/
def resolveType : (t : RecordType) → Except JsError (Answer t) → DnsResult
  | t, .error e =>
    if e.code = some "ENODATA" ∨ e.code = some "ENOTFOUND" then
      { type := t, records := [] }
    else
      { type := t, records := [],
        error := some (orFallback e.message (fallbackMessage t)) }
  | .A, .ok records => { type := .A, records := records }
  | .AAAA, .ok records => { type := .AAAA, records := records }
  | .CNAME, .ok records => { type := .CNAME, records := records }
  | .MX, .ok records => { type := .MX, records := (sortMx records).map renderMx }
  | .NS, .ok records => { type := .NS, records := records }
  | .TXT, .ok records => { type := .TXT, records := records.map joinChunks }
  | .SOA, .ok record => { type := .SOA, records := renderSoa record }
  | .CAA, .ok records => { type := .CAA, records := records.map renderCaa }
  | .SRV, .ok records => { type := .SRV, records := records.map renderSrv }

/-- One settled entry of `Promise.allSettled`: fulfilled with a value, or
rejected with `reason?.message` (absent when the reason is nullish or has
no message). -/
inductive SettledResult (α : Type) where
  | fulfilled (value : α)
  | rejected (reason : Option String)
deriving DecidableEq, Repr

/-- The callback of `results.map((result, index) => ...)` in `resolveDns`:
fulfilled tasks pass through, rejected tasks become
`{ type: types[index], records: [], error: reason?.message ?? "Unknown error" }`. -/
def settleEntry (types : List RecordType) (i : Fin types.length) :
    SettledResult DnsResult → DnsResult
  | .fulfilled v => v
  | .rejected reason =>
    { type := types.get i, records := [],
      error := some (reason.getD "Unknown error") }

/-- The `Promise.allSettled` join of `resolveDns`, over an arbitrary
assignment of settled per-task results (one per input position). -/
def allSettledJoin (types : List RecordType)
    (settled : (i : Fin types.length) → SettledResult DnsResult) : List DnsResult :=
  (List.finRange types.length).map fun i => settleEntry types i (settled i)

/-- `resolveDns` of `src/dns.ts`: one `resolveType` task per requested type,
joined positionally.  `env` gives the outcome of the single underlying
resolver call of the task at each position (so any completion order and any
per-call failure pattern is an instance); since `resolveType` catches every
failure, each task fulfills. -/
def resolveDns (types : List RecordType)
    (env : (i : Fin types.length) → Except JsError (Answer (types.get i))) :
    List DnsResult :=
  allSettledJoin types fun i => .fulfilled (resolveType (types.get i) (env i))

/-- Every branch of `resolveType` tags the result with the queried type. -/
theorem resolveType_type (t : RecordType) (o : Except JsError (Answer t)) :
    (resolveType t o).type = t := by
  cases o with
  | error e => cases t <;> simp only [resolveType] <;> split <;> rfl
  | ok a => cases t <;> rfl

/-- Every branch of `resolveType` yields a result with `records` and `error`
never both populated. -/
theorem resolveType_exclusive (t : RecordType) (o : Except JsError (Answer t)) :
    ((resolveType t o).records ≠ [] → (resolveType t o).error = none) ∧
    ((resolveType t o).error ≠ none → (resolveType t o).records = []) := by
  cases o with
  | error e => cases t <;> simp only [resolveType] <;> split <;> simp
  | ok a => cases t <;> simp [resolveType]

/-- C1: `resolveDns` returns exactly one result per requested type, at the
same index as in the input list (so for `types = []` it returns `[]`, and the
environment of underlying calls — indexed by `Fin types.length` — is empty:
no resolver call exists).  The result does not depend on completion order: it
is the positional join over an arbitrary outcome assignment `env`. -/
theorem resolveDns_shape (types : List RecordType)
    (env : (i : Fin types.length) → Except JsError (Answer (types.get i))) :
    (resolveDns types env).map DnsResult.type = types ∧
    (resolveDns types env).length = types.length := by
  constructor
  · show ((List.finRange types.length).map fun i =>
        settleEntry types i (.fulfilled (resolveType (types.get i) (env i)))).map
        DnsResult.type = types
    rw [List.map_map]
    have hcomp : (DnsResult.type ∘ fun i =>
        settleEntry types i (.fulfilled (resolveType (types.get i) (env i)))) = types.get := by
      funext i
      exact resolveType_type (types.get i) (env i)
    rw [hcomp, List.finRange_map_get]
  · simp [resolveDns, allSettledJoin]

/-- C2: every result `resolveDns` produces satisfies the exclusivity
invariant: non-empty `records` forces `error` to be absent, and a present
`error` forces `records` to be empty. -/
theorem resolveDns_exclusive (types : List RecordType)
    (env : (i : Fin types.length) → Except JsError (Answer (types.get i)))
    (r : DnsResult) (h : r ∈ resolveDns types env) :
    (r.records ≠ [] → r.error = none) ∧ (r.error ≠ none → r.records = []) := by
  simp only [resolveDns, allSettledJoin] at h
  obtain ⟨i, hi, rfl⟩ := List.mem_map.mp h
  exact resolveType_exclusive (types.get i) (env i)

/-- A concrete one-call environment: the `A` query returns one address. -/
def envOkA : (i : Fin (List.length [RecordType.A])) →
    Except JsError (Answer (List.get [RecordType.A] i))
  | ⟨0, _⟩ => .ok ["93.184.216.34"]
  | ⟨n + 1, h⟩ => absurd (Nat.lt_of_succ_lt_succ h) (Nat.not_lt_zero n)

/-- Witness for C2 at a concrete resolver run. -/
theorem resolveDns_exclusive_witness :
    (({ type := RecordType.A, records := ["93.184.216.34"] } : DnsResult) ∈
        resolveDns [RecordType.A] envOkA) ∧
    ((({ type := RecordType.A, records := ["93.184.216.34"] } : DnsResult).records ≠ [] →
        ({ type := RecordType.A, records := ["93.184.216.34"] } : DnsResult).error = none) ∧
      (({ type := RecordType.A, records := ["93.184.216.34"] } : DnsResult).error ≠ none →
        ({ type := RecordType.A, records := ["93.184.216.34"] } : DnsResult).records = [])) := by
  have hmem : ({ type := RecordType.A, records := ["93.184.216.34"] } : DnsResult) ∈
      resolveDns [RecordType.A] envOkA := by decide
  exact ⟨hmem, resolveDns_exclusive [RecordType.A] envOkA _ hmem⟩

/-- C3: the catch handler of `resolveType` classifies failures — the two
benign-absence codes `ENODATA` / `ENOTFOUND` give an empty, error-free
result; every other failure gives `error` = the failure's message, with the
fallback `"Failed to resolve <TYPE> records"` when the message is the empty
string (JS-falsy). -/
theorem resolveType_failure_classification (t : RecordType) (e : JsError) :
    resolveType t (.error e) =
      if e.code = some "ENODATA" ∨ e.code = some "ENOTFOUND" then
        { type := t, records := [], error := none }
      else
        { type := t, records := [],
          error := some (if e.message = "" then
            "Failed to resolve " ++ t.name ++ " records" else e.message) } := by
  cases t <;> rfl

/-- C8: each TXT answer's chunk sequence becomes exactly one record, in the
answers' original order, by concatenation with no separator
(`joinChunks [] = ""` and appending a chunk appends its text directly). -/
theorem resolveType_txt_join (answers : List (List String)) :
    (resolveType .TXT (.ok answers)).records = answers.map joinChunks ∧
    (resolveType .TXT (.ok answers)).records.length = answers.length ∧
    (∀ chunks s, joinChunks (chunks ++ [s]) = joinChunks chunks ++ s) ∧
    joinChunks [] = "" := by
  refine ⟨rfl, by simp [resolveType], ?_, rfl⟩
  intro chunks s
  simp [joinChunks, List.foldl_append]

/-- C7: each CAA answer renders as `"<flags> <tag> <value>"` with flags
`"128"` exactly when the `critical` flags value is set (nonzero), the tag
chosen by checking `issue`, then `issuewild`, else `"iodef"`, and the value
being the first populated of `issue`, `issuewild`, `iodef`. -/
theorem resolveType_caa_rendering (answers : List CaaAnswer) (r : CaaAnswer) :
    (resolveType .CAA (.ok answers)).records = answers.map renderCaa ∧
    renderCaa r =
      (if r.critical ≠ 0 then "128" else "0") ++ " " ++
      (if r.issue.isSome then "issue"
        else if r.issuewild.isSome then "issuewild" else "iodef") ++ " " ++
      (match r.issue with
        | some v => v
        | none =>
          match r.issuewild with
          | some v => v
          | none =>
            match r.iodef with
            | some v => v
            | none => "unknown") := by
  refine ⟨rfl, ?_⟩
  obtain ⟨c, i, iw, io⟩ := r
  cases i <;> cases iw <;> cases io <;> rfl

/-- C10: a CAA answer with none of `issue` / `issuewild` / `iodef` populated
is still rendered (one record per answer, no failure): tag defaults to
`"iodef"` and value to `"unknown"`. -/
theorem resolveType_caa_default (c : Nat) (answers : List CaaAnswer) :
    (resolveType .CAA (.ok answers)).records.length = answers.length ∧
    renderCaa { critical := c, issue := none, issuewild := none, iodef := none } =
      (if c ≠ 0 then "128" else "0") ++ " iodef unknown" := by
  constructor
  · simp [resolveType]
  · cases c with
    | zero => rfl
    | succ c' => rfl

/-- Inserting into a list touches, among the elements of any fixed priority
`p`, only the front: the per-priority sublists are preserved (this is the
stability of insertion). -/
theorem orderedInsert_filter_mx (a : MxAnswer) (p : Nat) :
    ∀ l : List MxAnswer,
      (List.orderedInsert mxLe a l).filter (fun r => r.priority == p) =
        if a.priority = p then a :: l.filter (fun r => r.priority == p)
        else l.filter (fun r => r.priority == p)
  | [] => by
    by_cases h : a.priority = p
    · simp [List.orderedInsert, List.filter_cons, h]
    · have hb : (a.priority == p) = false := by simpa using h
      simp [List.orderedInsert, List.filter_cons, hb, h]
  | b :: bs => by
    by_cases hle : mxLe a b
    · simp only [List.orderedInsert, if_pos hle]
      by_cases h : a.priority = p <;> simp [List.filter_cons, h]
    · have hb : b.priority < a.priority := Nat.lt_of_not_le hle
      simp only [List.orderedInsert, if_neg hle, List.filter_cons]
      rw [orderedInsert_filter_mx a p bs]
      by_cases h : a.priority = p
      · have hbp : ¬ b.priority = p := by omega
        simp [h, hbp]
      · by_cases hb2 : b.priority = p <;> simp [h, hb2]

/-- `sortMx` is stable: for every priority, the sublist of answers with that
priority keeps its original order. -/
theorem sortMx_filter (p : Nat) :
    ∀ l : List MxAnswer,
      (sortMx l).filter (fun r => r.priority == p) = l.filter (fun r => r.priority == p)
  | [] => rfl
  | a :: rest => by
    show (List.orderedInsert mxLe a (sortMx rest)).filter _ = _
    rw [orderedInsert_filter_mx, sortMx_filter p rest]
    by_cases h : a.priority = p <;> simp [List.filter_cons, h]

/-- C4: the MX records are the answers sorted ascending by priority — a
permutation of the input, pairwise ordered, and stable (each priority class
keeps input order) — each rendered as `"<priority> <exchange>"` except the
null MX `(0, ".")`, which gets the annotation. -/
theorem resolveType_mx_normalization (answers : List MxAnswer) :
    (resolveType .MX (.ok answers)).records = (sortMx answers).map renderMx ∧
    (sortMx answers).Pairwise mxLe ∧
    (sortMx answers).Perm answers ∧
    (∀ p : Nat, (sortMx answers).filter (fun r => r.priority == p) =
        answers.filter (fun r => r.priority == p)) ∧
    (∀ r : MxAnswer, renderMx r =
        if r.priority = 0 ∧ r.exchange = "." then
          "0 . (null MX — domain does not accept mail)"
        else toString r.priority ++ " " ++ r.exchange) := by
  refine ⟨rfl, List.sorted_insertionSort mxLe answers,
    List.perm_insertionSort mxLe answers, fun p => sortMx_filter p answers, ?_⟩
  intro r
  by_cases h : r.priority = 0 ∧ r.exchange = "."
  · simp only [renderMx, if_pos h]
    rw [h.1]
    rfl
  · simp [renderMx, h]

/-- C9: the `allSettled` join always yields a complete result list (one
entry per requested type — nothing can escape as a rejection), and a task
that somehow settled as rejected is mapped, at its own position, to an
error-carrying result for the type at that position, with
`reason?.message ?? "Unknown error"` as the text. -/
theorem resolveDns_never_rejects (types : List RecordType)
    (settled : (i : Fin types.length) → SettledResult DnsResult) :
    (allSettledJoin types settled).length = types.length ∧
    (∀ (i : Fin types.length) (m : Option String), settled i = .rejected m →
      (allSettledJoin types settled)[i.val]? =
        some { type := types.get i, records := [],
               error := some (m.getD "Unknown error") }) := by
  constructor
  · simp [allSettledJoin]
  · intro i m hrej
    have hi : i.val < (allSettledJoin types settled).length := by
      simp [allSettledJoin, i.isLt]
    rw [List.getElem?_eq_getElem hi]
    simp only [allSettledJoin, List.getElem_map, List.getElem_finRange, Fin.cast_mk]
    have : (⟨i.val, i.isLt⟩ : Fin types.length) = i := by
      exact Fin.ext rfl
    rw [this, hrej]
    rfl

/-- Witness for C9: a single-type run whose task settles rejected. -/
theorem resolveDns_never_rejects_witness :
    (allSettledJoin [RecordType.A] fun _ => .rejected (some "boom"))[0]? =
      some { type := RecordType.A, records := [], error := some "boom" } := by
  have h := (resolveDns_never_rejects [RecordType.A]
      fun _ => .rejected (some "boom")).2 ⟨0, by decide⟩ (some "boom") rfl
  exact h

/-! ### JSON output (`formatJson` of `src/formatter.ts`)

`formatJson` is `JSON.stringify({ domain, results }, null, 2)`.  The
serialization/parsing pair is the platform's (`JSON.stringify`/`JSON.parse`,
which are inverse on JSON documents); the repository's contribution is the
document this object produces, so the round trip is modelled at the JSON
document level.  `JSON.stringify` drops fields holding `undefined`, so a
`DnsResult` without `error` serializes with no `error` key at all. -/

/-- A JSON document (the fragment these outputs use). -/
inductive Json where
  | str (s : String)
  | arr (items : List Json)
  | obj (fields : List (String × Json))

/-- The JSON object `JSON.stringify` produces for one `DnsResult`: keys in
insertion order `type`, `records`, and `error` only when present. -/
def encodeResult (r : DnsResult) : Json :=
  .obj ([("type", .str r.type.name), ("records", .arr (r.records.map Json.str))] ++
    match r.error with
    | none => []
    | some e => [("error", Json.str e)])

/-- `formatJson(domain, results)` as the JSON document it stringifies:
`{ domain, results }`. -/
def formatJson (domain : String) (results : List DnsResult) : Json :=
  .obj [("domain", .str domain), ("results", .arr (results.map encodeResult))]

/-- The top-level keys of a JSON object. -/
def jsonKeys : Json → List String
  | .obj fields => fields.map Prod.fst
  | _ => []

/-- Field lookup in a parsed JSON object (first occurrence). -/
def lookupField (fields : List (String × Json)) (key : String) : Option Json :=
  match fields with
  | [] => none
  | (k, v) :: rest => if k = key then some v else lookupField rest key

/-- Modelled from the spec: reading a JSON string value. -/
def Json.asString : Json → Option String
  | .str s => some s
  | _ => none

/-- Modelled from the spec: reading a JSON array value. -/
def Json.asArr : Json → Option (List Json)
  | .arr l => some l
  | _ => none

/-- Modelled from the spec: the record-type name back to the enumerated type. -/
def recordTypeOfName (s : String) : Option RecordType :=
  if s = "A" then some .A
  else if s = "AAAA" then some .AAAA
  else if s = "CNAME" then some .CNAME
  else if s = "MX" then some .MX
  else if s = "NS" then some .NS
  else if s = "TXT" then some .TXT
  else if s = "SOA" then some .SOA
  else if s = "CAA" then some .CAA
  else if s = "SRV" then some .SRV
  else none

/-- Modelled from the spec: reading a JSON array of strings. -/
def decodeStrings : List Json → Option (List String)
  | [] => some []
  | j :: rest =>
    match j.asString, decodeStrings rest with
    | some s, some l => some (s :: l)
    | _, _ => none

/-- Modelled from the spec (`parse(renderJson(d, r))` reproduces each
element): one result object back to a `DnsResult`, reading `error` only when
the key is present. -/
def decodeResult (j : Json) : Option DnsResult :=
  match j with
  | .obj fields =>
    match lookupField fields "type", lookupField fields "records" with
    | some tj, some rj =>
      match tj.asString, rj.asArr with
      | some ts, some rl =>
        match recordTypeOfName ts, decodeStrings rl with
        | some t, some recs =>
          match lookupField fields "error" with
          | none => some { type := t, records := recs }
          | some ej =>
            match ej.asString with
            | some e => some { type := t, records := recs, error := some e }
            | none => none
        | _, _ => none
      | _, _ => none
    | _, _ => none
  | _ => none

/-- Modelled from the spec: the results array back to a result list. -/
def decodeResults : List Json → Option (List DnsResult)
  | [] => some []
  | j :: rest =>
    match decodeResult j, decodeResults rest with
    | some r, some l => some (r :: l)
    | _, _ => none

/-- Modelled from the spec: the whole document back to `(domain, results)`. -/
def decodeOutput (j : Json) : Option (String × List DnsResult) :=
  match j with
  | .obj fields =>
    match lookupField fields "domain", lookupField fields "results" with
    | some dj, some rj =>
      match dj.asString, rj.asArr with
      | some d, some rl =>
        match decodeResults rl with
        | some rs => some (d, rs)
        | none => none
      | _, _ => none
    | _, _ => none
  | _ => none

/-- A list of string literals decodes back to itself. -/
theorem decodeStrings_map (l : List String) :
    decodeStrings (l.map Json.str) = some l := by
  induction l with
  | nil => rfl
  | cons s rest ih => simp [List.map, decodeStrings, Json.asString, ih]

/-- The record-type name round-trips. -/
theorem recordTypeOfName_name (t : RecordType) :
    recordTypeOfName t.name = some t := by
  cases t <;> rfl

/-- One encoded result decodes back to itself. -/
theorem decodeResult_encodeResult (r : DnsResult) :
    decodeResult (encodeResult r) = some r := by
  obtain ⟨t, recs, err⟩ := r
  cases err with
  | none =>
    show decodeResult (.obj [("type", .str t.name), ("records", .arr (recs.map Json.str))]) = _
    simp [decodeResult, lookupField, Json.asString, Json.asArr,
      recordTypeOfName_name, decodeStrings_map]
  | some e =>
    show decodeResult (.obj [("type", .str t.name), ("records", .arr (recs.map Json.str)),
      ("error", .str e)]) = _
    simp [decodeResult, lookupField, Json.asString, Json.asArr,
      recordTypeOfName_name, decodeStrings_map]

/-- The encoded results array decodes back to itself, in order. -/
theorem decodeResults_map (results : List DnsResult) :
    decodeResults (results.map encodeResult) = some results := by
  induction results with
  | nil => rfl
  | cons r rest ih =>
    simp [List.map, decodeResults, decodeResult_encodeResult, ih]

/-- C5: parsing the JSON document `formatJson` produces reproduces exactly
`(domain, results)` — order preserved — and a result without an error
carries no `error` key at all (for identical input the output is identical:
`formatJson` is a function). -/
theorem formatJson_roundtrip (domain : String) (results : List DnsResult) (r : DnsResult) :
    decodeOutput (formatJson domain results) = some (domain, results) ∧
    jsonKeys (encodeResult r) =
      (["type", "records"] ++
        match r.error with
        | none => []
        | some _ => ["error"]) := by
  constructor
  · simp [formatJson, decodeOutput, lookupField, Json.asString, Json.asArr,
      decodeResults_map]
  · obtain ⟨t, recs, err⟩ := r
    cases err <;> rfl

/-! ### Table output (`formatTable` of `src/formatter.ts`)

The table output is modelled as the sequence of lines `formatTable` pushes,
with terminal styling (chalk colors) erased and each `cli-table3` rendering
abstracted as one `tableBlock` item carrying the data it is built from; the
control flow (which blocks appear, in which order, and when the summary line
appears) is translated exactly.  `if (result.error)` in the source is a JS
truthiness test: an empty-string error is falsy there. -/

/-- `TYPE_LABELS[result.type] ?? result.type` (the map is total, so the
fallback is unreachable). -/
def typeLabel : RecordType → String
  | .A => "A (IPv4)"
  | .AAAA => "AAAA (IPv6)"
  | .CNAME => "CNAME (Canonical Name)"
  | .MX => "MX (Mail Exchange)"
  | .NS => "NS (Name Servers)"
  | .TXT => "TXT (Text)"
  | .SOA => "SOA (Start of Authority)"
  | .CAA => "CAA (Certificate Authority)"
  | .SRV => "SRV (Service)"

/-- JS truthiness of `result.error`: present and not the empty string. -/
def errTruthy (r : DnsResult) : Bool :=
  match r.error with
  | some s => s != ""
  | none => false

/-- One line of the table output. -/
inductive TableLine where
  | blankLine
  | headerLine (domain : String)
  | ruleLine
  | errorHeader (label : String)
  | errorDetail (message : String)
  | emptyNote (label : String)
  | typeHeader (label : String)
  | tableBlock (t : RecordType) (records : List String)
  | summaryLine
deriving DecidableEq, Repr

/-- `short && result.records.length === 0 && !result.error`: the compact-mode
skip condition of the loop. -/
def skipResult (short : Bool) (r : DnsResult) : Bool :=
  short && (r.records.length == 0) && !errTruthy r

/-- The lines one non-skipped result pushes (error block, empty note, or
header plus rendered table, each followed by a blank line). -/
def blockOf (r : DnsResult) : List TableLine :=
  if errTruthy r then
    [.errorHeader (typeLabel r.type), .errorDetail (r.error.getD ""), .blankLine]
  else if r.records.length == 0 then
    [.emptyNote (typeLabel r.type), .blankLine]
  else
    [.typeHeader (typeLabel r.type), .tableBlock r.type r.records, .blankLine]

/-- Whether a result sets `hasAnyRecords` (the error branch and the
records branch do; the empty-note branch does not). -/
def contributes (r : DnsResult) : Bool :=
  errTruthy r || !(r.records.length == 0)

/-- The `for (const result of results)` loop: accumulated lines and the
`hasAnyRecords` flag, threaded in order. -/
def tableBody (short : Bool) : List DnsResult → Bool → List TableLine × Bool
  | [], hasAny => ([], hasAny)
  | r :: rest, hasAny =>
    if skipResult short r then tableBody short rest hasAny
    else if errTruthy r then
      let next := tableBody short rest true
      (blockOf r ++ next.1, next.2)
    else if r.records.length == 0 then
      let next := tableBody short rest hasAny
      (blockOf r ++ next.1, next.2)
    else
      let next := tableBody short rest true
      (blockOf r ++ next.1, next.2)

/-- The fixed header `formatTable` pushes before the loop. -/
def headerLines (domain : String) : List TableLine :=
  [.blankLine, .headerLine domain, .ruleLine, .blankLine]

/-- `formatTable(domain, results, short)` as its line sequence, with the
trailing `"No DNS records found."` summary when `!hasAnyRecords && short`. -/
def formatTable (domain : String) (results : List DnsResult) (short : Bool) :
    List TableLine :=
  let body := tableBody short results false
  headerLines domain ++ body.1 ++
    (if !body.2 && short then [.summaryLine, .blankLine] else [])

/-- A skipped result contributes nothing to `hasAnyRecords` either. -/
theorem skipResult_contributes (short : Bool) (r : DnsResult)
    (h : skipResult short r = true) : contributes r = false := by
  simp only [skipResult, Bool.and_eq_true, Bool.not_eq_true'] at h
  simp [contributes, h.1.2, h.2]

/-- The loop, closed form: the body is the concatenation of the blocks of
the non-skipped results, and the final flag is the initial one or-ed with
whether any result contributes. -/
theorem tableBody_eq (short : Bool) :
    ∀ (l : List DnsResult) (hasAny : Bool),
      tableBody short l hasAny =
        (((l.filter fun r => !skipResult short r).map blockOf).flatten,
          hasAny || l.any contributes)
  | [], hasAny => by simp [tableBody]
  | r :: rest, hasAny => by
    by_cases hs : skipResult short r = true
    · have hc := skipResult_contributes short r hs
      simp [tableBody, hs, tableBody_eq short rest hasAny, hc, List.filter_cons]
    · have hs' : skipResult short r = false := by
        cases hq : skipResult short r
        · rfl
        · exact absurd hq hs
      by_cases ht : errTruthy r = true
      · have hc : contributes r = true := by simp [contributes, ht]
        simp [tableBody, hs', ht, tableBody_eq short rest true, hc,
          List.filter_cons, blockOf, Bool.or_assoc]
      · have ht' : errTruthy r = false := by
          cases hq : errTruthy r
          · rfl
          · exact absurd hq ht
        by_cases hl : (r.records.length == 0) = true
        · have hshort : short = false := by
            cases hq : short
            · rfl
            · exact absurd (by simp [skipResult, hq, hl, ht']) hs
          have hc : contributes r = false := by simp [contributes, ht', hl]
          simp [tableBody, hs', ht', hl, tableBody_eq short rest hasAny, hc,
            List.filter_cons, blockOf]
        · have hl' : (r.records.length == 0) = false := by
            cases hq : (r.records.length == 0)
            · rfl
            · exact absurd hq hl
          have hc : contributes r = true := by simp [contributes, hl']
          simp [tableBody, hs', ht', hl', tableBody_eq short rest true, hc,
            List.filter_cons, blockOf, Bool.or_assoc]

/-- Per list, "no result contributes" is "every result has empty records and
a falsy error". -/
theorem not_any_contributes (l : List DnsResult) :
    (!(l.any contributes)) =
      l.all fun r => (r.records.length == 0) && !errTruthy r := by
  induction l with
  | nil => rfl
  | cons r rest ih =>
    simp only [List.any_cons, List.all_cons, Bool.not_or, ih, contributes]
    cases h : errTruthy r <;> cases h2 : (r.records.length == 0) <;> simp

/-- No block ever contains the summary line. -/
theorem summaryLine_not_in_blockOf (r : DnsResult) :
    TableLine.summaryLine ∉ blockOf r := by
  unfold blockOf
  split
  · simp
  · split <;> simp

/-- C6 counterexample: the claim reads compact mode as omitting exactly the
blocks with empty records and **no** error, and emitting the summary iff
every result has empty records and no error.  A result with the
present-but-empty error `some ""` refutes both directions: its `error` field
is present, yet the source's JS truthiness test `!result.error` treats it as
absent, so its block is omitted and the summary is emitted anyway. -/
theorem formatTable_compact_counterexample :
    formatTable "example.com"
        [{ type := RecordType.A, records := [], error := some "" }] true =
      headerLines "example.com" ++ [TableLine.summaryLine, TableLine.blankLine] ∧
    ({ type := RecordType.A, records := [], error := some "" } : DnsResult).error ≠ none := by
  constructor
  · rfl
  · simp

/-- C6 (amended): in compact mode the omitted blocks are exactly those of
results with empty records and a JS-falsy `error` (absent or the empty
string), and the summary line appears iff every result has empty records and
a falsy error; in non-compact mode every result's block appears and the
summary line never does. -/
theorem formatTable_compact_rule (domain : String) (results : List DnsResult)
    (short : Bool) :
    (formatTable domain results short =
      headerLines domain ++
        ((results.filter fun r => !skipResult short r).map blockOf).flatten ++
        (if short && (results.all fun r => (r.records.length == 0) && !errTruthy r)
          then [TableLine.summaryLine, TableLine.blankLine] else [])) ∧
    (formatTable domain results false =
      headerLines domain ++ (results.map blockOf).flatten) ∧
    TableLine.summaryLine ∉ formatTable domain results false := by
  have h1 : ∀ sh : Bool, formatTable domain results sh =
      headerLines domain ++
        ((results.filter fun r => !skipResult sh r).map blockOf).flatten ++
        (if sh && (results.all fun r => (r.records.length == 0) && !errTruthy r)
          then [TableLine.summaryLine, TableLine.blankLine] else []) := by
    intro sh
    have hcond : (!(results.any contributes) && sh) =
        (sh && (results.all fun r => (r.records.length == 0) && !errTruthy r)) := by
      rw [not_any_contributes, Bool.and_comm]
    simp only [formatTable, tableBody_eq, Bool.false_or]
    rw [hcond]
  have h2 : formatTable domain results false =
      headerLines domain ++ (results.map blockOf).flatten := by
    have := h1 false
    simpa [skipResult] using this
  refine ⟨h1 short, h2, ?_⟩
  rw [h2]
  intro hmem
  rcases List.mem_append.mp hmem with h | h
  · simp [headerLines] at h
  · obtain ⟨ls, hls, hin⟩ := List.mem_flatten.mp h
    obtain ⟨r, _, rfl⟩ := List.mem_map.mp hls
    exact summaryLine_not_in_blockOf r hin

end DnsChecker
